import Mathlib

/-!
# Verification of the SVG-to-Godot polygon converter

Shallow embedding of `MVP_GODOT/tools/svg_to_godot_polygons.py`
(`SVGToGodotConverter`): the path tokenizer and parser, the coordinate
scaler, the greedy polygon simplifier, the centroid, the 2-decimal
rounding, and the folder orchestrator, together with theorems settling
the specification's claims about them.

Numeric modelling: Python floats are modelled by exact rationals `ℚ`
(all claim inputs are small decimal values where float and exact
arithmetic agree).  The source's distance test
`((dx**2 + dy**2) ** 0.5) >= tolerance` is embedded sqrt-free as the
decidable condition `tolerance ≤ 0 ∨ tolerance² ≤ dx² + dy²`, and
`keep_eq_sqrt_test` proves this equal to the real-number comparison
`tolerance ≤ √(dx² + dy²)`, so the embedding is faithful to the
source's formula over the reals.
-/

namespace SvgToGodot

/-- A 2D point `(x, y)`, Python's `Tuple[float, float]` modelled exactly. -/
abbrev Point := ℚ × ℚ

/-! ## Tokenizer

Source line 112: `tokens = re.findall(r'[MLZ]|[\d.]+', path_string)`.
A token is either one of the single letters `M`, `L`, `Z`, or a maximal
run of digits and dots; every other character is a separator.  (The
preceding `path_string.strip()` only removes surrounding whitespace,
which the scan skips anyway, so it does not change the token list.)
Tokens are modelled as `List Char`. -/

/-- Characters matched by the regex class `[\d.]`. -/
def isNumChar (c : Char) : Bool := c.isDigit || c = '.'

/-- Characters matched by the regex class `[MLZ]`. -/
def isCmdChar (c : Char) : Bool := c = 'M' || c = 'L' || c = 'Z'

/-- Left-to-right scan of `re.findall(r'[MLZ]|[\d.]+', s)`; `run` is the
reversed numeric run currently being accumulated. -/
def findTokensAux : List Char → List Char → List (List Char)
  | [], run => if run.isEmpty then [] else [run.reverse]
  | c :: cs, run =>
    if isNumChar c then findTokensAux cs (c :: run)
    else
      let rest := if isCmdChar c then [c] :: findTokensAux cs [] else findTokensAux cs []
      if run.isEmpty then rest else run.reverse :: rest

/-- `re.findall(r'[MLZ]|[\d.]+', s)` (source line 112). -/
def findTokens (s : String) : List (List Char) := findTokensAux s.toList []

/-! ## `float()` on a token

Inside the parser loop every coordinate token goes through Python's
`float(...)` guarded by `try/except (ValueError, IndexError)`.  We model
the guarded call as an `Option ℚ`: `none` exactly when `float` would
raise `ValueError`.  Tokens reaching `float` are either a command letter
(no digit → raises) or a `[\d.]+` run, for which `float` succeeds iff it
has at most one dot and at least one digit (`"1."`, `".5"`, `"10"` are
fine; `"1.2.3"` and `"."` raise). -/

/-- Value of a digit string read in base 10. -/
def digitsVal (ds : List Char) : ℕ := ds.foldl (fun n c => 10 * n + (c.toNat - 48)) 0

/-- Guarded `float(token)`: `some` of the value, or `none` where Python's
`float` would raise `ValueError` (source lines 121-126, 137-142). -/
def pyFloat? (t : List Char) : Option ℚ :=
  if t.all isNumChar && t.count '.' ≤ 1 && t.any (·.isDigit) then
    let ip := t.takeWhile (· ≠ '.')
    let fp := (t.dropWhile (· ≠ '.')).drop 1
    some ((digitsVal ip : ℚ) + (digitsVal fp : ℚ) / 10 ^ fp.length)
  else none

/-! ## Path parser

Source lines 114-147: an index-based `while` loop over the token list;
every branch advances the index (`i += 3`, `i += 2` or `i += 1`), so it
is a recursion on the remaining token list.  `if i + 2 < len(tokens)`
means "at least two tokens follow the current one", and likewise
`i + 1 < len(tokens)` means "at least one token follows". -/

/-- The parser loop of `parse_svg_path` (source lines 114-147), with a
fuel parameter standing for the remaining loop iterations (each
iteration advances `i` by at least one token, so `tokens.length` units
suffice; `parseTokensFuel_congr` below shows any sufficient fuel gives
the same result).  The fuel keeps the recursion structural so that
concrete runs compute inside the kernel. -/
def parseTokensFuel : ℕ → List (List Char) → List Point
  | 0, _ => []
  | _ + 1, [] => []
  | fuel + 1, t :: rest =>
    if t = ['M'] ∨ t = ['L'] then
      match rest with
      | a :: b :: rest2 =>
        match pyFloat? a, pyFloat? b with
        | some x, some y => (x, y) :: parseTokensFuel fuel rest2
        | _, _ => parseTokensFuel fuel rest
      | _ => parseTokensFuel fuel rest
    else if t = ['Z'] then parseTokensFuel fuel rest
    else
      match rest with
      | b :: rest2 =>
        match pyFloat? t, pyFloat? b with
        | some x, some y => (x, y) :: parseTokensFuel fuel rest2
        | _, _ => parseTokensFuel fuel rest
      | [] => parseTokensFuel fuel rest

/-- The parser loop of `parse_svg_path` run on a whole token list. -/
def parseTokens (ts : List (List Char)) : List Point :=
  parseTokensFuel ts.length ts

/-- `SVGToGodotConverter.parse_svg_path` (source lines 91-147). -/
def parse_svg_path (pathString : String) : List Point :=
  parseTokens (findTokens pathString)

/-! ## Coordinate scaler -/

/-- `SVGToGodotConverter.scale_coordinates` (source lines 149-164), with
the converter's `self.scale_x` / `self.scale_y` passed explicitly. -/
def scale_coordinates (scaleX scaleY : ℚ) : List Point → List Point
  | [] => []
  | (x, y) :: ps => (x * scaleX, y * scaleY) :: scale_coordinates scaleX scaleY ps

/-! ## Polygon simplifier -/

/-- Squared Euclidean distance, `(curr_x - prev_x)**2 + (curr_y - prev_y)**2`
(source line 189). -/
def dist2 (prev curr : Point) : ℚ :=
  (curr.1 - prev.1) ^ 2 + (curr.2 - prev.2) ^ 2

/-- The source's test `distance >= tolerance` where
`distance = (dist2 prev curr) ** 0.5` (source lines 189-191), embedded
sqrt-free; `keep_eq_sqrt_test` below proves it equal to the real
square-root comparison. -/
def keep (tolerance : ℚ) (prev curr : Point) : Bool :=
  decide (tolerance ≤ 0) || decide (tolerance ^ 2 ≤ dist2 prev curr)

/-- The `for` loop of `simplify_polygon` (source lines 184-192): `last`
is `simplified[-1]`, the most recently kept point. -/
def simplifyLoop (tolerance : ℚ) (last : Point) : List Point → List Point
  | [] => []
  | p :: ps =>
    if keep tolerance last p then p :: simplifyLoop tolerance p ps
    else simplifyLoop tolerance last ps

/-- `SVGToGodotConverter.simplify_polygon` (source lines 166-194). -/
def simplify_polygon (coordinates : List Point) (tolerance : ℚ) : List Point :=
  if coordinates.length ≤ 3 then coordinates
  else
    match coordinates with
    | [] => []
    | c :: cs => c :: simplifyLoop tolerance c cs

/-! ## Centroid and rounding -/

/-- `SVGToGodotConverter.calculate_centroid` (source lines 196-214). -/
def calculate_centroid (coordinates : List Point) : Point :=
  if coordinates.isEmpty then (0, 0)
  else
    ((coordinates.map Prod.fst).sum / coordinates.length,
     (coordinates.map Prod.snd).sum / coordinates.length)

/-- Round-half-to-even to the nearest integer, Python's `round` rule
(on our exact rationals; claim inputs are nowhere near a tie). -/
def pyRoundInt (q : ℚ) : ℤ :=
  let f := ⌊q⌋
  let r := q - f
  if r < 1 / 2 then f
  else if 1 / 2 < r then f + 1
  else if f % 2 = 0 then f else f + 1

/-- Python's `round(q, 2)` (source lines 284, 289). -/
def pyRound2 (q : ℚ) : ℚ := (pyRoundInt (q * 100) : ℚ) / 100

/-! ## Folder orchestrator

`convert_svg_folder` (source lines 216-299) and the exit decision of
`main` (source lines 391-393).  The filesystem and XML layers are
abstracted: an SVG file is modelled as its filename together with the
list of `d` attributes of its `path` elements (that list is all
`parse_svg_file` extracts from the XML; a file whose XML parse fails or
that has no `path` elements yields `[]`, modelled by an empty attribute
list). -/

/-- An input file: its filename and the `d` attributes of its `path`
elements, in document order. -/
structure SvgFile where
  name : String
  dAttrs : List String
deriving DecidableEq

/-- An input folder: either absent on disk, or present with its files. -/
inductive Folder where
  | missing : Folder
  | present : List SvgFile → Folder
deriving DecidableEq

/-- `SVGToGodotConverter.parse_svg_file` (source lines 49-89) over the
abstracted XML layer: parse each nonempty `d` attribute and concatenate
(`all_coordinates.extend(coords)`). -/
def parse_svg_file (f : SvgFile) : List Point :=
  f.dAttrs.foldl (fun acc d => if d.isEmpty then acc else acc ++ parse_svg_path d) []

/-- `Path.stem`: the filename without its final extension (`"a.svg"` ↦
`"a"`; a leading dot alone is not an extension). -/
def stem (n : String) : String :=
  let cs := n.toList
  if '.' ∈ cs.drop 1 then ⟨cs.take (cs.length - 1 - cs.reverse.indexOf '.')⟩ else n

/-- `str.replace('_', ' ')` (source line 257). -/
def replaceUnderscores (s : String) : String :=
  ⟨s.toList.map (fun c => if c = '_' then ' ' else c)⟩

/-- Helper for `str.title()`: the flag records whether the previous
character was a letter. -/
def pyTitleAux : Bool → List Char → List Char
  | _, [] => []
  | prevAlpha, c :: cs =>
    if c.isAlpha then (if prevAlpha then c.toLower else c.toUpper) :: pyTitleAux true cs
    else c :: pyTitleAux false cs

/-- `str.title()` (source line 257): uppercase each letter that follows
a non-letter, lowercase the rest. -/
def pyTitle (s : String) : String := ⟨pyTitleAux false s.toList⟩

/-- One output record (source lines 286-291). -/
structure TerritoryRecord where
  name : String
  polygon : List Point
  centroid : Point
  vertex_count : ℕ
deriving DecidableEq

/-- Insert a file into a name-sorted list (model of `sorted(svg_files)`,
source line 255, which orders same-directory paths by filename). -/
def insertByName (f : SvgFile) : List SvgFile → List SvgFile
  | [] => [f]
  | g :: gs => if f.name ≤ g.name then f :: g :: gs else g :: insertByName f gs

/-- `sorted(svg_files)` (source line 255). -/
def sortFiles (files : List SvgFile) : List SvgFile :=
  files.foldr insertByName []

/-- The per-file body of the conversion loop (source lines 255-296):
`none` when the file yields no coordinates and is skipped (line 265),
otherwise the `(territory_id, record)` entry added to the result. -/
def processFile (simplifyFlag : Bool) (tolerance scaleX scaleY : ℚ) (f : SvgFile) :
    Option (String × TerritoryRecord) :=
  let raw := parse_svg_file f
  if raw.isEmpty then none
  else
    let scaled := scale_coordinates scaleX scaleY raw
    let coords := if simplifyFlag then simplify_polygon scaled tolerance else scaled
    let cent := calculate_centroid coords
    let polygonPoints := coords.map (fun p => (pyRound2 p.1, pyRound2 p.2))
    some (stem f.name,
      { name := pyTitle (replaceUnderscores (stem f.name)),
        polygon := polygonPoints,
        centroid := (pyRound2 cent.1, pyRound2 cent.2),
        vertex_count := polygonPoints.length })

/-- `SVGToGodotConverter.convert_svg_folder` (source lines 216-299); the
result dictionary is modelled as an association list in insertion order.
The two guards (source lines 232-241) return an empty dataset when the
folder is missing or no file matches the `*.svg` glob. -/
def convert_svg_folder (folder : Folder) (simplifyFlag : Bool)
    (tolerance scaleX scaleY : ℚ) : List (String × TerritoryRecord) :=
  match folder with
  | .missing => []
  | .present files =>
    let svgFiles := files.filter (fun f => f.name.endsWith ".svg")
    if svgFiles.isEmpty then []
    else (sortFiles svgFiles).filterMap (processFile simplifyFlag tolerance scaleX scaleY)

/-- The files of a folder matching the `*.svg` glob (source line 237). -/
def svgMatches : Folder → List SvgFile
  | .missing => []
  | .present files => files.filter (fun f => f.name.endsWith ".svg")

/-- Lines 391-393 of `main`: `if not godot_data: sys.exit(1)` — `some 1`
when the process exits with failure status 1 there, `none` when it
continues to the save step. -/
def mainEarlyExit (data : List (String × TerritoryRecord)) : Option ℕ :=
  if data.isEmpty then some 1 else none

/-! ## Real-number reading of the distance test -/

/-- Euclidean distance between two points over the reals, the exact
value of the source's `((curr_x-prev_x)**2 + (curr_y-prev_y)**2) ** 0.5`
(source line 189). -/
noncomputable def euclidDist (prev curr : Point) : ℝ :=
  Real.sqrt (((curr.1 : ℝ) - (prev.1 : ℝ)) ^ 2 + ((curr.2 : ℝ) - (prev.2 : ℝ)) ^ 2)

/-! ## Spec-side definitions (from the specification's words, for
comparison with the source embeddings) -/

open Classical in
/-- The walk described by the spec's simplifier sentence: keep a point
iff its Euclidean distance to the most recently *kept* point is at least
the tolerance (spec §4.3). -/
noncomputable def specWalk (tolerance : ℝ) (lastKept : Point) : List Point → List Point
  | [] => []
  | p :: ps =>
    if euclidDist lastKept p ≥ tolerance then p :: specWalk tolerance p ps
    else specWalk tolerance lastKept ps

/-- What the spec says `simplify` degenerates to at tolerance ≤ 0:
"keep everything except exact duplicates of the running last kept
point" (spec §4.3, claim C2). -/
def specDropDups (lastKept : Point) : List Point → List Point
  | [] => []
  | p :: ps => if p = lastKept then specDropDups lastKept ps else p :: specDropDups p ps

/-- The claim-C2 simplifier at tolerance ≤ 0, from the spec's words. -/
def specSimplifyNonpos : List Point → List Point
  | [] => []
  | c :: cs => c :: specDropDups c cs

/-- The numeric tokens of a token list, with their `float` values (used
to state claim C3, which speaks of "the next two numeric tokens"). -/
def numericValues (ts : List (List Char)) : List ℚ := ts.filterMap pyFloat?

/-! ## Helper lemmas -/

/-- The sqrt-free keep condition is exactly the source's comparison
`distance >= tolerance` read over the reals. -/
theorem keep_eq_sqrt_test (tolerance : ℚ) (prev curr : Point) :
    keep tolerance prev curr = true ↔ (tolerance : ℝ) ≤ euclidDist prev curr := by
  have hd : ((dist2 prev curr : ℚ) : ℝ)
      = ((curr.1 : ℝ) - (prev.1 : ℝ)) ^ 2 + ((curr.2 : ℝ) - (prev.2 : ℝ)) ^ 2 := by
    push_cast [dist2]; ring
  unfold keep euclidDist
  rw [Bool.or_eq_true, decide_eq_true_iff, decide_eq_true_iff, ← hd]
  constructor
  · rintro (h | h)
    · exact le_trans (by exact_mod_cast h) (Real.sqrt_nonneg _)
    · exact Real.le_sqrt_of_sq_le (by exact_mod_cast h)
  · intro h
    by_cases h0 : tolerance ≤ 0
    · exact Or.inl h0
    · refine Or.inr ?_
      have hpos : (0 : ℝ) < (tolerance : ℝ) := by exact_mod_cast lt_of_not_le h0
      have := (Real.le_sqrt' hpos).mp h
      exact_mod_cast this

/-- Any two sufficient fuels give the parser loop the same result: the
loop consumes at least one token per iteration. -/
theorem parseTokensFuel_congr :
    ∀ (f g : ℕ) (ts : List (List Char)), ts.length ≤ f → ts.length ≤ g →
      parseTokensFuel f ts = parseTokensFuel g ts := by
  intro f
  induction f with
  | zero =>
    intro g ts hf _
    have h0 : ts = [] := List.eq_nil_of_length_eq_zero (Nat.le_zero.mp hf)
    subst h0
    cases g <;> rfl
  | succ f ih =>
    intro g ts hf hg
    cases ts with
    | nil => cases g <;> rfl
    | cons t rest =>
      cases g with
      | zero => simp at hg
      | succ g =>
        have hf1 : rest.length ≤ f := by simpa using hf
        have hg1 : rest.length ≤ g := by simpa using hg
        simp only [parseTokensFuel]
        by_cases h1 : t = ['M'] ∨ t = ['L']
        · rw [if_pos h1, if_pos h1]
          cases rest with
          | nil => exact ih g [] (by simp) (by simp)
          | cons a rest1 =>
            cases rest1 with
            | nil => exact ih g [a] (by simpa using hf1) (by simpa using hg1)
            | cons b rest2 =>
              have hf2 : rest2.length ≤ f := by simp at hf1; omega
              have hg2 : rest2.length ≤ g := by simp at hg1; omega
              cases hxa : pyFloat? a with
              | none => simp only [hxa]; exact ih g (a :: b :: rest2) hf1 hg1
              | some x =>
                cases hxb : pyFloat? b with
                | none => simp only [hxa, hxb]; exact ih g (a :: b :: rest2) hf1 hg1
                | some y => simp only [hxa, hxb]; rw [ih g rest2 hf2 hg2]
        · rw [if_neg h1, if_neg h1]
          by_cases h2 : t = ['Z']
          · rw [if_pos h2, if_pos h2]; exact ih g rest hf1 hg1
          · rw [if_neg h2, if_neg h2]
            cases rest with
            | nil => exact ih g [] (by simp) (by simp)
            | cons b rest2 =>
              have hf2 : rest2.length ≤ f := by simp at hf1; omega
              have hg2 : rest2.length ≤ g := by simp at hg1; omega
              cases hxa : pyFloat? t with
              | none => simp only [hxa]; exact ih g (b :: rest2) hf1 hg1
              | some x =>
                cases hxb : pyFloat? b with
                | none => simp only [hxa, hxb]; exact ih g (b :: rest2) hf1 hg1
                | some y => simp only [hxa, hxb]; rw [ih g rest2 hf2 hg2]

/-- An `M`/`L` command followed by two float-parsable tokens emits the
point and continues after them (`i += 3`, source line 125). -/
theorem parseTokens_cmd_take (c a b : List Char) (ts : List (List Char))
    (hc : c = ['M'] ∨ c = ['L']) (x y : ℚ)
    (hx : pyFloat? a = some x) (hy : pyFloat? b = some y) :
    parseTokens (c :: a :: b :: ts) = (x, y) :: parseTokens ts := by
  have hcongr := parseTokensFuel_congr (ts.length + 1 + 1) ts.length ts (by omega) le_rfl
  rcases hc with hc | hc <;> subst hc <;>
    simp +decide [parseTokens, parseTokensFuel, hx, hy, hcongr]

/-- An `M`/`L` command followed by two tokens of which one fails
`float()` is skipped alone (`i += 1`, source line 127). -/
theorem parseTokens_cmd_skip (c a b : List Char) (ts : List (List Char))
    (hc : c = ['M'] ∨ c = ['L'])
    (h : pyFloat? a = none ∨ pyFloat? b = none) :
    parseTokens (c :: a :: b :: ts) = parseTokens (a :: b :: ts) := by
  have key : ∀ xa xb, pyFloat? a = xa → pyFloat? b = xb →
      (xa = none ∨ xb = none) → parseTokens (c :: a :: b :: ts) = parseTokens (a :: b :: ts) := by
    intro xa xb hxa hxb hn
    rcases hc with hc | hc <;> subst hc <;>
      cases xa with
      | none => simp +decide [parseTokens, parseTokensFuel, hxa]
      | some x =>
        cases xb with
        | none => simp +decide [parseTokens, parseTokensFuel, hxa, hxb]
        | some y => simp at hn
  exact key (pyFloat? a) (pyFloat? b) rfl rfl (by rcases h with h | h <;> simp [h])

/-- An `M`/`L` command with fewer than two following tokens is skipped
alone (`i += 1`, source line 129). -/
theorem parseTokens_cmd_short (c a : List Char) (hc : c = ['M'] ∨ c = ['L']) :
    parseTokens [c, a] = parseTokens [a] ∧ parseTokens [c] = [] := by
  rcases hc with hc | hc <;> subst hc <;>
    exact ⟨by simp +decide [parseTokens, parseTokensFuel],
           by simp +decide [parseTokens, parseTokensFuel]⟩

/-- A `Z` token is skipped (source lines 130-132). -/
theorem parseTokens_Z (ts : List (List Char)) :
    parseTokens (['Z'] :: ts) = parseTokens ts := by
  simp +decide [parseTokens, parseTokensFuel]

/-- A non-command token followed by another token, both float-parsable:
implicit `LineTo` continuation (`i += 2`, source lines 136-141). -/
theorem parseTokens_num_take (t b : List Char) (ts : List (List Char))
    (hcmd : ¬(t = ['M'] ∨ t = ['L'])) (hz : t ≠ ['Z']) (x y : ℚ)
    (hx : pyFloat? t = some x) (hy : pyFloat? b = some y) :
    parseTokens (t :: b :: ts) = (x, y) :: parseTokens ts := by
  have hcongr := parseTokensFuel_congr (ts.length + 1) ts.length ts (by omega) le_rfl
  simp [parseTokens, parseTokensFuel, hcmd, hz, hx, hy, hcongr]

/-- A non-command token whose continuation pair fails `float()` is
skipped alone (`i += 1`, source line 143). -/
theorem parseTokens_num_skip (t b : List Char) (ts : List (List Char))
    (hcmd : ¬(t = ['M'] ∨ t = ['L'])) (hz : t ≠ ['Z'])
    (h : pyFloat? t = none ∨ pyFloat? b = none) :
    parseTokens (t :: b :: ts) = parseTokens (b :: ts) := by
  have key : ∀ xa xb, pyFloat? t = xa → pyFloat? b = xb →
      (xa = none ∨ xb = none) → parseTokens (t :: b :: ts) = parseTokens (b :: ts) := by
    intro xa xb hxa hxb hn
    cases xa with
    | none => simp [parseTokens, parseTokensFuel, hcmd, hz, hxa]
    | some x =>
      cases xb with
      | none => simp [parseTokens, parseTokensFuel, hcmd, hz, hxa, hxb]
      | some y => simp at hn
  exact key (pyFloat? t) (pyFloat? b) rfl rfl (by rcases h with h | h <;> simp [h])

/-- A final non-command token with nothing after it is dropped
(source lines 144-145). -/
theorem parseTokens_num_last (t : List Char)
    (hcmd : ¬(t = ['M'] ∨ t = ['L'])) (hz : t ≠ ['Z']) :
    parseTokens [t] = [] := by
  simp [parseTokens, parseTokensFuel, hcmd, hz]

/-- Exhausted token lists parse to nothing, whatever the fuel. -/
theorem parseTokensFuel_nil (f : ℕ) : parseTokensFuel f [] = [] := by
  cases f <;> rfl

/-- Each emitted point consumes at least two tokens, whatever the fuel. -/
theorem parseTokensFuel_length_le :
    ∀ (f : ℕ) (ts : List (List Char)), 2 * (parseTokensFuel f ts).length ≤ ts.length := by
  intro f
  induction f with
  | zero => intro ts; simp [parseTokensFuel]
  | succ f ih =>
    intro ts
    cases ts with
    | nil => simp [parseTokensFuel]
    | cons t rest =>
      simp only [parseTokensFuel, List.length_cons]
      by_cases h1 : t = ['M'] ∨ t = ['L']
      · rw [if_pos h1]
        cases rest with
        | nil => simp [parseTokensFuel_nil]
        | cons a rest1 =>
          cases rest1 with
          | nil =>
            have h := ih [a]
            simp only [List.length_cons, List.length_nil] at h ⊢
            omega
          | cons b rest2 =>
            cases hxa : pyFloat? a with
            | none =>
              have h := ih (a :: b :: rest2)
              simp only [hxa, List.length_cons] at h ⊢
              omega
            | some x =>
              cases hxb : pyFloat? b with
              | none =>
                have h := ih (a :: b :: rest2)
                simp only [hxa, hxb, List.length_cons] at h ⊢
                omega
              | some y =>
                have h := ih rest2
                simp only [hxa, hxb, List.length_cons] at h ⊢
                omega
      · rw [if_neg h1]
        by_cases h2 : t = ['Z']
        · rw [if_pos h2]
          have h := ih rest
          omega
        · rw [if_neg h2]
          cases rest with
          | nil => simp [parseTokensFuel_nil]
          | cons b rest2 =>
            cases hxa : pyFloat? t with
            | none =>
              have h := ih (b :: rest2)
              simp only [hxa, List.length_cons] at h ⊢
              omega
            | some x =>
              cases hxb : pyFloat? b with
              | none =>
                have h := ih (b :: rest2)
                simp only [hxa, hxb, List.length_cons] at h ⊢
                omega
              | some y =>
                have h := ih rest2
                simp only [hxa, hxb, List.length_cons] at h ⊢
                omega

/-- Every character of every token produced by the tokenizer is a
command letter or a digit/dot: all other input characters are
separators. -/
theorem findTokensAux_chars :
    ∀ (cs run : List Char), (∀ c ∈ run, isNumChar c = true) →
      ∀ t ∈ findTokensAux cs run, ∀ c ∈ t, isCmdChar c = true ∨ isNumChar c = true := by
  intro cs
  induction cs with
  | nil =>
    intro run hrun t ht c hc
    by_cases h : run.isEmpty <;> simp [findTokensAux, h] at ht
    subst ht
    exact Or.inr (hrun c (by simpa using hc))
  | cons d ds ih =>
    intro run hrun t ht c hc
    simp only [findTokensAux] at ht
    by_cases hn : isNumChar d
    · rw [if_pos hn] at ht
      refine ih (d :: run) ?_ t ht c hc
      intro e he
      rcases List.mem_cons.mp he with he | he
      · exact he ▸ hn
      · exact hrun e he
    · rw [if_neg hn] at ht
      by_cases hr : run.isEmpty
      · simp only [hr, if_true] at ht
        by_cases hcmd : isCmdChar d
        · rw [if_pos hcmd] at ht
          rcases List.mem_cons.mp ht with ht | ht
          · subst ht
            have : c = d := by simpa using hc
            exact this ▸ Or.inl hcmd
          · exact ih [] (by simp) t ht c hc
        · rw [if_neg hcmd] at ht
          exact ih [] (by simp) t ht c hc
      · simp only [hr, if_false] at ht
        rcases List.mem_cons.mp ht with ht | ht
        · subst ht
          exact Or.inr (hrun c (by simpa using hc))
        · by_cases hcmd : isCmdChar d
          · rw [if_pos hcmd] at ht
            rcases List.mem_cons.mp ht with ht | ht
            · subst ht
              have : c = d := by simpa using hc
              exact this ▸ Or.inl hcmd
            · exact ih [] (by simp) t ht c hc
          · rw [if_neg hcmd] at ht
            exact ih [] (by simp) t ht c hc

/-- `float("0") = 0`. -/
theorem pyFloat_tok_0 : pyFloat? ['0'] = some 0 := by
  simp +decide [pyFloat?, List.takeWhile, List.dropWhile]
  norm_num [show digitsVal ['0'] = 0 from by decide, show digitsVal [] = 0 from by decide]

/-- `float("1") = 1`. -/
theorem pyFloat_tok_1 : pyFloat? ['1'] = some 1 := by
  simp +decide [pyFloat?, List.takeWhile, List.dropWhile]
  norm_num [show digitsVal ['1'] = 1 from by decide, show digitsVal [] = 0 from by decide]

/-- `float("2") = 2`. -/
theorem pyFloat_tok_2 : pyFloat? ['2'] = some 2 := by
  simp +decide [pyFloat?, List.takeWhile, List.dropWhile]
  norm_num [show digitsVal ['2'] = 2 from by decide, show digitsVal [] = 0 from by decide]

/-- `float("5") = 5`. -/
theorem pyFloat_tok_5 : pyFloat? ['5'] = some 5 := by
  simp +decide [pyFloat?, List.takeWhile, List.dropWhile]
  norm_num [show digitsVal ['5'] = 5 from by decide, show digitsVal [] = 0 from by decide]

/-- `float("6") = 6`. -/
theorem pyFloat_tok_6 : pyFloat? ['6'] = some 6 := by
  simp +decide [pyFloat?, List.takeWhile, List.dropWhile]
  norm_num [show digitsVal ['6'] = 6 from by decide, show digitsVal [] = 0 from by decide]

/-- `float("7") = 7`. -/
theorem pyFloat_tok_7 : pyFloat? ['7'] = some 7 := by
  simp +decide [pyFloat?, List.takeWhile, List.dropWhile]
  norm_num [show digitsVal ['7'] = 7 from by decide, show digitsVal [] = 0 from by decide]

/-- `float("8") = 8`. -/
theorem pyFloat_tok_8 : pyFloat? ['8'] = some 8 := by
  simp +decide [pyFloat?, List.takeWhile, List.dropWhile]
  norm_num [show digitsVal ['8'] = 8 from by decide, show digitsVal [] = 0 from by decide]

/-- `float("10") = 10`. -/
theorem pyFloat_tok_10 : pyFloat? ['1', '0'] = some 10 := by
  simp +decide [pyFloat?, List.takeWhile, List.dropWhile]
  norm_num [show digitsVal ['1', '0'] = 10 from by decide, show digitsVal [] = 0 from by decide]

/-- `float("Z")` raises `ValueError`. -/
theorem pyFloat_tok_Z : pyFloat? ['Z'] = none := by decide

/-- At non-positive tolerance the source's `distance >= tolerance` test
always passes (`0.0 >= 0` and `0.0 >= -x` are true), so the loop keeps
every point. -/
theorem simplifyLoop_of_nonpos {tolerance : ℚ} (h : tolerance ≤ 0) :
    ∀ (ps : List Point) (last : Point), simplifyLoop tolerance last ps = ps := by
  intro ps
  induction ps with
  | nil => intro last; rfl
  | cons p ps ih =>
    intro last
    have hk : keep tolerance last p = true := by simp [keep, h]
    simp [simplifyLoop, hk, ih]

/-- The simplifier loop keeps an in-order subsequence of its input. -/
theorem simplifyLoop_sublist (tolerance : ℚ) :
    ∀ (ps : List Point) (last : Point), (simplifyLoop tolerance last ps).Sublist ps := by
  intro ps
  induction ps with
  | nil => intro last; simp [simplifyLoop]
  | cons p ps ih =>
    intro last
    by_cases hk : keep tolerance last p = true
    · simpa [simplifyLoop, hk] using List.Sublist.cons₂ p (ih p)
    · have hb : keep tolerance last p = false := by simpa using hk
      simpa [simplifyLoop, hb] using List.Sublist.cons p (ih last)

/-- The source loop coincides with the spec's walk phrased with real
Euclidean distances. -/
theorem simplifyLoop_eq_specWalk (tolerance : ℚ) :
    ∀ (ps : List Point) (last : Point),
      simplifyLoop tolerance last ps = specWalk (tolerance : ℝ) last ps := by
  intro ps
  induction ps with
  | nil => intro last; rfl
  | cons p ps ih =>
    intro last
    by_cases hk : keep tolerance last p = true
    · have hs : euclidDist last p ≥ (tolerance : ℝ) :=
        (keep_eq_sqrt_test tolerance last p).mp hk
      simp only [simplifyLoop, specWalk, if_pos hk, if_pos hs, ih]
    · have hs : ¬(euclidDist last p ≥ (tolerance : ℝ)) := fun hs =>
        hk ((keep_eq_sqrt_test tolerance last p).mpr hs)
      simp only [simplifyLoop, specWalk, if_neg hk, if_neg hs, ih]

/-- Scaling is the elementwise map `(x, y) ↦ (x·scaleX, y·scaleY)`. -/
theorem scale_coordinates_eq_map (sx sy : ℚ) :
    ∀ ps : List Point, scale_coordinates sx sy ps = ps.map (fun p => (p.1 * sx, p.2 * sy)) := by
  intro ps
  induction ps with
  | nil => rfl
  | cons p ps ih => cases p; simp [scale_coordinates, ih]

/-- Scaling preserves length. -/
theorem scale_coordinates_length (sx sy : ℚ) (ps : List Point) :
    (scale_coordinates sx sy ps).length = ps.length := by
  rw [scale_coordinates_eq_map]; simp

/-- Under uniform positive scaling with the tolerance scaled alike, the
keep test is unchanged. -/
theorem keep_scale {s : ℚ} (hs : 0 < s) (t : ℚ) (p q : Point) :
    keep (s * t) (p.1 * s, p.2 * s) (q.1 * s, q.2 * s) = keep t p q := by
  have h1 : (s * t ≤ 0) ↔ (t ≤ 0) := by
    constructor
    · intro h
      by_contra ht
      have : 0 < s * t := mul_pos hs (lt_of_not_le ht)
      linarith
    · intro h
      nlinarith
  have h2 : dist2 (p.1 * s, p.2 * s) (q.1 * s, q.2 * s) = s ^ 2 * dist2 p q := by
    simp only [dist2]; ring
  have h3 : ((s * t) ^ 2 ≤ s ^ 2 * dist2 p q) ↔ (t ^ 2 ≤ dist2 p q) := by
    rw [mul_pow]
    exact mul_le_mul_left (pow_pos hs 2)
  rw [Bool.eq_iff_iff]
  simp only [keep, Bool.or_eq_true, decide_eq_true_iff]
  rw [h2, h1, h3]

/-- The simplifier loop commutes with uniform positive scaling when the
tolerance is scaled by the same factor. -/
theorem simplifyLoop_scale (s t : ℚ) (hs : 0 < s) :
    ∀ (ps : List Point) (last : Point),
      simplifyLoop (s * t) (last.1 * s, last.2 * s) (scale_coordinates s s ps)
        = scale_coordinates s s (simplifyLoop t last ps) := by
  intro ps
  induction ps with
  | nil => intro last; rfl
  | cons p ps ih =>
    intro last
    cases p with
    | mk px py =>
      simp only [scale_coordinates]
      by_cases hk : keep t last (px, py) = true
      · have hk2 : keep (s * t) (last.1 * s, last.2 * s) (px * s, py * s) = true := by
          rw [show ((px * s, py * s) : Point) = ((px, py).1 * s, (px, py).2 * s) from rfl,
              keep_scale hs]
          exact hk
        simp only [simplifyLoop, if_pos hk, if_pos hk2, scale_coordinates]
        exact congrArg (List.cons _) (ih (px, py))
      · have hk2 : ¬(keep (s * t) (last.1 * s, last.2 * s) (px * s, py * s) = true) := by
          rw [show ((px * s, py * s) : Point) = ((px, py).1 * s, (px, py).2 * s) from rfl,
              keep_scale hs]
          exact hk
        simp only [simplifyLoop, if_neg hk, if_neg hk2]
        exact ih last

/-! ## Claims -/

/-- C1, counterexample: on the three-point list `[(0,0),(0.5,0),(2,0)]`
with tolerance 1, `simplify_polygon` hits the `len <= 3` guard and
returns the input unchanged — it does **not** return `[(0,0),(2,0)]` as
the claim states. -/
theorem claim_C1_counterexample :
    simplify_polygon [((0 : ℚ), (0 : ℚ)), (1/2, 0), (2, 0)] 1
      = [((0 : ℚ), (0 : ℚ)), (1/2, 0), (2, 0)] ∧
    simplify_polygon [((0 : ℚ), (0 : ℚ)), (1/2, 0), (2, 0)] 1
      ≠ [((0 : ℚ), (0 : ℚ)), (2, 0)] := by
  have h1 : simplify_polygon [((0 : ℚ), (0 : ℚ)), (1/2, 0), (2, 0)] 1
      = [((0 : ℚ), (0 : ℚ)), (1/2, 0), (2, 0)] := by
    norm_num [simplify_polygon]
  refine ⟨h1, ?_⟩
  rw [h1]
  intro h
  have := congrArg List.length h
  simp at this

/-- C1, amended: with a fourth point appended the drop happens as the
claim describes — `[(0,0),(0.5,0),(2,0),(5,0)]` at tolerance 1 yields
`[(0,0),(2,0),(5,0)]`, the second point dropped because its distance 0.5
from the last kept point `(0,0)` is below tolerance — while on the
original three-point list `simplify_polygon` returns the input unchanged
because of the `len <= 3` guard. -/
theorem claim_C1_amended :
    simplify_polygon [((0 : ℚ), (0 : ℚ)), (1/2, 0), (2, 0), (5, 0)] 1
      = [((0 : ℚ), (0 : ℚ)), (2, 0), (5, 0)] ∧
    simplify_polygon [((0 : ℚ), (0 : ℚ)), (1/2, 0), (2, 0)] 1
      = [((0 : ℚ), (0 : ℚ)), (1/2, 0), (2, 0)] := by
  constructor
  · norm_num [simplify_polygon, simplifyLoop, keep, dist2]
  · norm_num [simplify_polygon]

/-- C2, counterexample: at tolerance 0 the test `distance >= tolerance`
also passes for exact duplicates (`0 >= 0`), so on
`[(0,0),(0,0),(1,0),(3,0)]` the code keeps all 4 points, while the
claim ("input length minus exact consecutive duplicates") predicts
length 3. -/
theorem claim_C2_counterexample :
    simplify_polygon [((0 : ℚ), (0 : ℚ)), (0, 0), (1, 0), (3, 0)] 0
      = [((0 : ℚ), (0 : ℚ)), (0, 0), (1, 0), (3, 0)] ∧
    specSimplifyNonpos [((0 : ℚ), (0 : ℚ)), (0, 0), (1, 0), (3, 0)]
      = [((0 : ℚ), (0 : ℚ)), (1, 0), (3, 0)] ∧
    (simplify_polygon [((0 : ℚ), (0 : ℚ)), (0, 0), (1, 0), (3, 0)] 0).length ≠ 4 - 1 := by
  have h1 : simplify_polygon [((0 : ℚ), (0 : ℚ)), (0, 0), (1, 0), (3, 0)] 0
      = [((0 : ℚ), (0 : ℚ)), (0, 0), (1, 0), (3, 0)] := by
    norm_num [simplify_polygon, simplifyLoop, keep, dist2]
  have h2 : specSimplifyNonpos [((0 : ℚ), (0 : ℚ)), (0, 0), (1, 0), (3, 0)]
      = [((0 : ℚ), (0 : ℚ)), (1, 0), (3, 0)] := by
    norm_num [specSimplifyNonpos, specDropDups]
  exact ⟨h1, h2, by rw [h1]; decide⟩

/-- C2, amended: for every tolerance ≤ 0 the simplifier returns its
input unchanged — every point passes `distance >= tolerance`, exact
duplicates included. -/
theorem claim_C2_amended (coordinates : List Point) (tolerance : ℚ)
    (h : tolerance ≤ 0) :
    simplify_polygon coordinates tolerance = coordinates := by
  by_cases hlen : coordinates.length ≤ 3
  · simp [simplify_polygon, hlen]
  · cases coordinates with
    | nil => simp [simplify_polygon]
    | cons c cs => simp [simplify_polygon, hlen, simplifyLoop_of_nonpos h]

/-- Witness for C2 (amended) at tolerance 0 and a concrete list with a
duplicate point. -/
theorem claim_C2_amended_witness :
    (0 : ℚ) ≤ 0 ∧
    simplify_polygon [((0 : ℚ), (0 : ℚ)), (0, 0), (1, 0), (3, 0)] 0
      = [((0 : ℚ), (0 : ℚ)), (0, 0), (1, 0), (3, 0)] :=
  ⟨le_refl 0, claim_C2_amended _ 0 (le_refl 0)⟩

/-- C3, counterexample: in `"M 1 Z 2"` the `M` is followed by exactly
the two numeric tokens `1` and `2` (values recovered by
`numericValues`), so the claim requires the point `(1,2)` to be
emitted; the code instead tries `float("1")`, `float("Z")`, fails, skips
the `M` alone, and ends with no points at all. -/
theorem claim_C3_counterexample :
    findTokens "M 1 Z 2" = [['M'], ['1'], ['Z'], ['2']] ∧
    numericValues [['1'], ['Z'], ['2']] = [(1 : ℚ), 2] ∧
    parse_svg_path "M 1 Z 2" = [] := by
  refine ⟨by decide, ?_, ?_⟩
  · simp [numericValues, pyFloat_tok_1, pyFloat_tok_Z, pyFloat_tok_2]
  · have htok : findTokens "M 1 Z 2" = [['M'], ['1'], ['Z'], ['2']] := by decide
    show parseTokens (findTokens "M 1 Z 2") = []
    rw [htok,
        parseTokens_cmd_skip _ _ _ _ (Or.inl rfl) (Or.inr pyFloat_tok_Z),
        parseTokens_num_skip _ _ _ (by decide) (by decide) (Or.inr pyFloat_tok_Z),
        parseTokens_Z]
    exact parseTokens_num_last ['2'] (by decide) (by decide)

/-- C3, amended: an `M`/`L` command consumes the next two **tokens** as
`(x, y)` exactly when at least two tokens follow it and both parse as
floats; otherwise only the command token itself is skipped (no point
emitted, no error raised) and scanning resumes at the very next token —
the code never searches ahead for numeric tokens. -/
theorem claim_C3_amended (c a b : List Char) (ts : List (List Char))
    (hc : c = ['M'] ∨ c = ['L']) :
    (∀ x y : ℚ, pyFloat? a = some x → pyFloat? b = some y →
        parseTokens (c :: a :: b :: ts) = (x, y) :: parseTokens ts) ∧
    ((pyFloat? a = none ∨ pyFloat? b = none) →
        parseTokens (c :: a :: b :: ts) = parseTokens (a :: b :: ts)) ∧
    parseTokens [c, a] = parseTokens [a] ∧
    parseTokens [c] = [] :=
  ⟨fun x y hx hy => parseTokens_cmd_take c a b ts hc x y hx hy,
   fun h => parseTokens_cmd_skip c a b ts hc h,
   (parseTokens_cmd_short c a hc).1,
   (parseTokens_cmd_short c a hc).2⟩

/-- Witness for C3 (amended): `M 1 2` emits the point `(1, 2)`. -/
theorem claim_C3_amended_witness :
    ((['M'] : List Char) = ['M'] ∨ (['M'] : List Char) = ['L']) ∧
    pyFloat? ['1'] = some 1 ∧ pyFloat? ['2'] = some 2 ∧
    parseTokens [['M'], ['1'], ['2']] = [((1 : ℚ), (2 : ℚ))] := by
  refine ⟨Or.inl rfl, pyFloat_tok_1, pyFloat_tok_2, ?_⟩
  exact (claim_C3_amended ['M'] ['1'] ['2'] [] (Or.inl rfl)).1 1 2 pyFloat_tok_1 pyFloat_tok_2

/-- C4: for more than 3 points, `simplify_polygon` keeps the first point
and then performs exactly the greedy walk of the spec — keep a point iff
its Euclidean distance (real square root) to the most recently **kept**
point is at least the tolerance — in input order (the output is an
in-order sublist of the input). -/
theorem claim_C4 (coordinates : List Point) (tolerance : ℚ)
    (h : 3 < coordinates.length) :
    ∃ p0 rest, coordinates = p0 :: rest ∧
      simplify_polygon coordinates tolerance
        = p0 :: specWalk (tolerance : ℝ) p0 rest ∧
      (simplify_polygon coordinates tolerance).Sublist coordinates := by
  cases coordinates with
  | nil => simp at h
  | cons c cs =>
    have hlen : ¬((c :: cs).length ≤ 3) := by
      simp only [List.length_cons] at h ⊢
      omega
    have hlen2 : ¬(cs.length ≤ 2) := by
      simp only [List.length_cons] at h
      omega
    refine ⟨c, cs, rfl, ?_, ?_⟩
    · simp [simplify_polygon, hlen, hlen2, simplifyLoop_eq_specWalk tolerance]
    · simp only [simplify_polygon, if_neg hlen]
      exact List.Sublist.cons₂ c (simplifyLoop_sublist tolerance cs c)

/-- Witness for C4 on a concrete four-point list at tolerance 1. -/
theorem claim_C4_witness :
    3 < ([((0 : ℚ), (0 : ℚ)), (1/2, 0), (2, 0), (5, 0)] : List Point).length ∧
    (∃ p0 rest, ([((0 : ℚ), (0 : ℚ)), (1/2, 0), (2, 0), (5, 0)] : List Point) = p0 :: rest ∧
      simplify_polygon [((0 : ℚ), (0 : ℚ)), (1/2, 0), (2, 0), (5, 0)] 1
        = p0 :: specWalk ((1 : ℚ) : ℝ) p0 rest ∧
      (simplify_polygon [((0 : ℚ), (0 : ℚ)), (1/2, 0), (2, 0), (5, 0)] 1).Sublist
        [((0 : ℚ), (0 : ℚ)), (1/2, 0), (2, 0), (5, 0)]) :=
  ⟨by decide, claim_C4 _ 1 (by decide)⟩

/-- C5: scaling is the elementwise map `(x,y) ↦ (x·scaleX, y·scaleY)`
(order and length preserved); uniform positive scaling commutes with
simplification when the tolerance is scaled by the same factor; and for
the non-uniform scale `(4, 1)` on `[(0,0),(0.5,0),(2,0),(5,0)]` at
tolerance 1 the two orders keep different point sets (4 survivors vs 3). -/
theorem claim_C5 :
    (∀ (sx sy : ℚ) (ps : List Point),
        scale_coordinates sx sy ps = ps.map (fun p => (p.1 * sx, p.2 * sy))) ∧
    (∀ (s t : ℚ) (ps : List Point), 0 < s → 0 < t →
        simplify_polygon (scale_coordinates s s ps) (s * t)
          = scale_coordinates s s (simplify_polygon ps t)) ∧
    (simplify_polygon (scale_coordinates 4 1 [((0 : ℚ), (0 : ℚ)), (1/2, 0), (2, 0), (5, 0)]) 1).length
      ≠ (scale_coordinates 4 1 (simplify_polygon [((0 : ℚ), (0 : ℚ)), (1/2, 0), (2, 0), (5, 0)] 1)).length := by
  refine ⟨fun sx sy ps => scale_coordinates_eq_map sx sy ps, ?_, ?_⟩
  · intro s t ps hs _ht
    by_cases hlen : ps.length ≤ 3
    · have hlen2 : (scale_coordinates s s ps).length ≤ 3 := by
        rw [scale_coordinates_length]; exact hlen
      simp [simplify_polygon, hlen, hlen2]
    · have hlen2 : ¬((scale_coordinates s s ps).length ≤ 3) := by
        rw [scale_coordinates_length]; exact hlen
      cases ps with
      | nil => simp at hlen
      | cons p ps2 =>
        cases p with
        | mk px py =>
          have hA : ¬(ps2.length ≤ 2) := by
            simp only [List.length_cons] at hlen
            omega
          have hB : ¬((scale_coordinates s s ps2).length ≤ 2) := by
            rw [scale_coordinates_length]; exact hA
          simp [simplify_polygon, hA, hB, scale_coordinates]
          exact simplifyLoop_scale s t hs ps2 (px, py)
  · have h1 : simplify_polygon
        (scale_coordinates 4 1 [((0 : ℚ), (0 : ℚ)), (1/2, 0), (2, 0), (5, 0)]) 1
        = [((0 : ℚ), (0 : ℚ)), (2, 0), (8, 0), (20, 0)] := by
      norm_num [scale_coordinates, simplify_polygon, simplifyLoop, keep, dist2]
    have h2 : scale_coordinates 4 1
        (simplify_polygon [((0 : ℚ), (0 : ℚ)), (1/2, 0), (2, 0), (5, 0)] 1)
        = [((0 : ℚ), (0 : ℚ)), (8, 0), (20, 0)] := by
      norm_num [scale_coordinates, simplify_polygon, simplifyLoop, keep, dist2]
    rw [h1, h2]
    decide

/-- Witness for C5's commutation part at scale 2, tolerance 1. -/
theorem claim_C5_witness :
    (0 : ℚ) < 2 ∧ (0 : ℚ) < 1 ∧
    simplify_polygon (scale_coordinates 2 2 [((0 : ℚ), (0 : ℚ)), (1/2, 0), (2, 0), (5, 0)]) (2 * 1)
      = scale_coordinates 2 2 (simplify_polygon [((0 : ℚ), (0 : ℚ)), (1/2, 0), (2, 0), (5, 0)] 1) :=
  ⟨by norm_num, by norm_num,
   claim_C5.2.1 2 1 [((0 : ℚ), (0 : ℚ)), (1/2, 0), (2, 0), (5, 0)] (by norm_num) (by norm_num)⟩

/-- C6: a list of 3 or fewer points is returned unchanged for every
tolerance (the `len <= 3` guard, source lines 179-180). -/
theorem claim_C6 (coordinates : List Point) (tolerance : ℚ)
    (h : coordinates.length ≤ 3) :
    simplify_polygon coordinates tolerance = coordinates := by
  simp [simplify_polygon, h]

/-- Witness for C6 on a concrete three-point list at tolerance 100. -/
theorem claim_C6_witness :
    ([((0 : ℚ), (0 : ℚ)), (1/2, 0), (2, 0)] : List Point).length ≤ 3 ∧
    simplify_polygon [((0 : ℚ), (0 : ℚ)), (1/2, 0), (2, 0)] 100
      = [((0 : ℚ), (0 : ℚ)), (1/2, 0), (2, 0)] :=
  ⟨by decide, claim_C6 _ 100 (by decide)⟩

/-- C7: `"M0,0 L10,0 L10,10 Z"` parses to `[(0,0),(10,0),(10,10)]`, and
after scaling by 1/1 and simplifying at tolerance 1 the centroid rounded
to 2 decimals is `(6.67, 3.33)`. -/
theorem claim_C7 :
    parse_svg_path "M0,0 L10,0 L10,10 Z" = [((0 : ℚ), (0 : ℚ)), (10, 0), (10, 10)] ∧
    (pyRound2 (calculate_centroid (simplify_polygon
        (scale_coordinates 1 1 (parse_svg_path "M0,0 L10,0 L10,10 Z")) 1)).1,
     pyRound2 (calculate_centroid (simplify_polygon
        (scale_coordinates 1 1 (parse_svg_path "M0,0 L10,0 L10,10 Z")) 1)).2)
      = ((667 : ℚ) / 100, (333 : ℚ) / 100) := by
  have htok : findTokens "M0,0 L10,0 L10,10 Z"
      = [['M'], ['0'], ['0'], ['L'], ['1','0'], ['0'], ['L'], ['1','0'], ['1','0'], ['Z']] := by
    decide
  have hparse : parse_svg_path "M0,0 L10,0 L10,10 Z"
      = [((0 : ℚ), (0 : ℚ)), (10, 0), (10, 10)] := by
    show parseTokens (findTokens "M0,0 L10,0 L10,10 Z") = _
    rw [htok,
        parseTokens_cmd_take _ _ _ _ (Or.inl rfl) 0 0 pyFloat_tok_0 pyFloat_tok_0,
        parseTokens_cmd_take _ _ _ _ (Or.inr rfl) 10 0 pyFloat_tok_10 pyFloat_tok_0,
        parseTokens_cmd_take _ _ _ _ (Or.inr rfl) 10 10 pyFloat_tok_10 pyFloat_tok_10,
        parseTokens_Z]
    rfl
  refine ⟨hparse, ?_⟩
  rw [hparse]
  norm_num [scale_coordinates, simplify_polygon, calculate_centroid, pyRound2, pyRoundInt]

/-- C8: the tokenizer's character classes contain no minus sign, so no
token of any path string ever contains one, and negative coordinates
lose their sign: `"M -5,-6 L -7,8"` parses to `[(5,6),(7,8)]`. -/
theorem claim_C8 :
    (∀ (s : String), ∀ t ∈ findTokens s, '-' ∉ t) ∧
    parse_svg_path "M -5,-6 L -7,8" = [((5 : ℚ), (6 : ℚ)), (7, 8)] := by
  constructor
  · intro s t ht hmem
    have h := findTokensAux_chars s.toList [] (by simp) t ht '-' hmem
    rcases h with h | h <;> simp +decide [isCmdChar, isNumChar] at h
  · have htok : findTokens "M -5,-6 L -7,8"
        = [['M'], ['5'], ['6'], ['L'], ['7'], ['8']] := by decide
    show parseTokens (findTokens "M -5,-6 L -7,8") = _
    rw [htok,
        parseTokens_cmd_take _ _ _ _ (Or.inl rfl) 5 6 pyFloat_tok_5 pyFloat_tok_6,
        parseTokens_cmd_take _ _ _ _ (Or.inr rfl) 7 8 pyFloat_tok_7 pyFloat_tok_8]
    rfl

/-- Witness for C8's tokenizer part on the string `"M -5"`. -/
theorem claim_C8_witness :
    (['M'] ∈ findTokens "M -5") ∧ '-' ∉ (['M'] : List Char) :=
  ⟨by decide, claim_C8.1 "M -5" ['M'] (by decide)⟩

/-- C9: a missing input folder, or one with no file matching the
`*.svg` filter, makes `convert_svg_folder` return the empty dataset
without raising, after which `main` exits with failure status 1. -/
theorem claim_C9 (folder : Folder) (simplifyFlag : Bool)
    (tolerance scaleX scaleY : ℚ)
    (h : folder = Folder.missing ∨ svgMatches folder = []) :
    convert_svg_folder folder simplifyFlag tolerance scaleX scaleY = [] ∧
    mainEarlyExit (convert_svg_folder folder simplifyFlag tolerance scaleX scaleY) = some 1 := by
  have hempty : convert_svg_folder folder simplifyFlag tolerance scaleX scaleY = [] := by
    rcases h with h | h
    · subst h; rfl
    · cases folder with
      | missing => rfl
      | present files =>
        have hf : files.filter (fun f => f.name.endsWith ".svg") = [] := h
        simp [convert_svg_folder, hf]
  exact ⟨hempty, by rw [hempty]; rfl⟩

/-- Witness for C9 at the missing folder. -/
theorem claim_C9_witness :
    (Folder.missing = Folder.missing ∨ svgMatches Folder.missing = []) ∧
    convert_svg_folder Folder.missing true 1 1 1 = [] ∧
    mainEarlyExit (convert_svg_folder Folder.missing true 1 1 1) = some 1 :=
  ⟨Or.inl rfl, (claim_C9 Folder.missing true 1 1 1 (Or.inl rfl)).1,
   (claim_C9 Folder.missing true 1 1 1 (Or.inl rfl)).2⟩

/-- C10: the parser is a total function of the input string — it always
returns a (possibly empty) point list, never more than half as long as
the token list; every token is made of command letters or digit/dot
characters only (everything else is a skipped separator); and a
zero-point result is an ordinary value, as on `"xq 123abc"`. -/
theorem claim_C10 :
    (∀ s : String, parse_svg_path s = parseTokens (findTokens s)) ∧
    (∀ s : String, 2 * (parse_svg_path s).length ≤ (findTokens s).length) ∧
    (∀ (s : String), ∀ t ∈ findTokens s, ∀ c ∈ t,
        isCmdChar c = true ∨ isNumChar c = true) ∧
    parse_svg_path "xq 123abc" = [] := by
  refine ⟨fun s => rfl, fun s => parseTokensFuel_length_le _ _, ?_, ?_⟩
  · intro s t ht c hc
    exact findTokensAux_chars s.toList [] (by simp) t ht c hc
  · have htok : findTokens "xq 123abc" = [['1','2','3']] := by decide
    show parseTokens (findTokens "xq 123abc") = []
    rw [htok]
    exact parseTokens_num_last ['1','2','3'] (by decide) (by decide)

/-- Witness for C10's token-soundness part on a concrete token. -/
theorem claim_C10_witness :
    (['1','2','3'] ∈ findTokens "xq 123abc") ∧ ('1' ∈ (['1','2','3'] : List Char)) ∧
    (isCmdChar '1' = true ∨ isNumChar '1' = true) :=
  ⟨by decide, by decide,
   claim_C10.2.2.1 "xq 123abc" ['1','2','3'] (by decide) '1' (by decide)⟩

end SvgToGodot
